import Mathlib

/-!
Verification of the `earthdata-varinfo` core against its specification.

The development shallowly embeds the relevant parts of the Python source:

* `varinfo/cf_config.py` — the `CFConfig` class: reading the configuration
  file, applicability filtering, and `_get_matching_attributes`;
* `varinfo/variable.py` — the `VariableBase` class: attribute construction
  (`_get_configured_attribute`, `_add_missing_attributes`), reference
  qualification (`_qualify_references`, `_construct_absolute_path`) and the
  classification predicates (`is_latitude`, `is_longitude`, `is_temporal`,
  `is_projection_x_or_y`);
* `varinfo/var_info.py` — the `VarInfoBase` class: `is_science_variable`,
  `get_science_variables`, `get_metadata_variables`, `variable_is_excluded`,
  `get_required_variables` and `exclude_fake_dimensions`.

Python dictionaries are embedded as association lists in insertion order,
Python sets as deduplicated lists, and Python's `re.match` (an unanchored
prefix match) as a Brzozowski-derivative matcher over the regular-expression
constructs occurring in the configuration patterns (literal characters,
`.`, `*`, `+`, `\d`, escaping, and top-level alternation `|`).  All
definitions are executable, so concrete runs of the embedded code can be
settled by `decide`/`rfl`.
-/

/-! ## String helpers

Character-list level models of the Python string operations used by the
source.  Working on `List Char` keeps every function structurally recursive
and kernel-reducible. -/

/-- Model of Python `str.startswith`: the candidate prefix's characters are
a prefix of the string's characters. -/
def strStartsWith (s pre : String) : Bool :=
  pre.toList.isPrefixOf s.toList

/-- Model of Python `str.endswith`: the candidate suffix's characters are a
suffix of the string's characters. -/
def strEndsWith (s suf : String) : Bool :=
  suf.toList.isSuffixOf s.toList

/-- Model of Python `str.rstrip(':')`: remove every trailing colon. -/
def rstripColon (s : String) : String :=
  String.mk ((s.toList.reverse.dropWhile (fun c => c == ':')).reverse)

/-- Substring test at the character-list level, used to model Python's
`needle in haystack` for strings. -/
def listContainsSub : List Char → List Char → Bool
  | l, pat =>
    if pat.isPrefixOf l then true
    else
      match l with
      | [] => false
      | _ :: t => listContainsSub t pat

/-- Model of Python `needle in haystack` on strings. -/
def strContains (s pat : String) : Bool :=
  listContainsSub s.toList pat.toList

/-- Split a character list at every occurrence of the separator character;
models Python `str.split(sep)` for a single-character separator. -/
def splitOnCharList (sep : Char) : List Char → List (List Char)
  | [] => [[]]
  | c :: rest =>
    let r := splitOnCharList sep rest
    if c == sep then [] :: r
    else
      match r with
      | [] => [[c]]
      | h :: t => (c :: h) :: t

/-- Model of Python `str.split(sep)` for a one-character separator. -/
def strSplitOnChar (sep : Char) (s : String) : List String :=
  (splitOnCharList sep s.toList).map String.mk

/-- Interleave a separator character between character lists; the helper
behind `joinChar`. -/
def joinCharList (sep : Char) : List (List Char) → List Char
  | [] => []
  | [l] => l
  | l :: (h :: t) => l ++ sep :: joinCharList sep (h :: t)

/-- Model of Python `sep.join(parts)` for a one-character separator. -/
def joinChar (sep : Char) (parts : List String) : String :=
  String.mk (joinCharList sep (parts.map String.toList))

/-! ## Regular expressions

A small regular-expression engine covering the constructs used by the
configuration patterns of the repository (`cf_config.py` matches plain
pattern strings with `re.match`).  Matching is by Brzozowski derivatives;
`reMatch` implements Python `re.match`'s semantics: the pattern has to
match some prefix of the subject string, anchored at the start only. -/

/-- Abstract syntax of the supported regular-expression subset. -/
inductive Regex where
  | fail : Regex
  | epsilon : Regex
  | char (c : Char) : Regex
  | anyChar : Regex
  | digit : Regex
  | star (r : Regex) : Regex
  | cat (r₁ r₂ : Regex) : Regex
  | alt (r₁ r₂ : Regex) : Regex
deriving Repr, DecidableEq

/-- Does the regular expression accept the empty string? -/
def Regex.nullable : Regex → Bool
  | .fail => false
  | .epsilon => true
  | .char _ => false
  | .anyChar => false
  | .digit => false
  | .star _ => true
  | .cat a b => a.nullable && b.nullable
  | .alt a b => a.nullable || b.nullable

/-- Brzozowski derivative of a regular expression by one character. -/
def Regex.deriv : Regex → Char → Regex
  | .fail, _ => .fail
  | .epsilon, _ => .fail
  | .char c, d => if c == d then .epsilon else .fail
  | .anyChar, _ => .epsilon
  | .digit, d => if d.isDigit then .epsilon else .fail
  | .star r, d => .cat (r.deriv d) (.star r)
  | .cat a b, d =>
    if a.nullable then .alt (.cat (a.deriv d) b) (b.deriv d)
    else .cat (a.deriv d) b
  | .alt a b, d => .alt (a.deriv d) (b.deriv d)

/-- Does the regular expression match some prefix of the character list?
This is the acceptance test used by Python's `re.match`. -/
def Regex.matchPrefix : Regex → List Char → Bool
  | r, [] => r.nullable
  | r, c :: cs => r.nullable || (r.deriv c).matchPrefix cs

/-- Parse one atom (`.`, an escape such as `\d`, or a literal character) off
the front of a pattern; returns the atom and the remaining characters. -/
def parseAtom : List Char → Regex × List Char
  | [] => (.epsilon, [])
  | '\\' :: c :: rest => (if c == 'd' then .digit else .char c, rest)
  | ['\\'] => (.epsilon, [])
  | '.' :: rest => (.anyChar, rest)
  | c :: rest => (.char c, rest)

/-- Parse a sequence of postfixed atoms.  Fuel bounds the recursion; each
step consumes at least one character, so `cs.length` fuel suffices. -/
def parseSeq : Nat → List Char → Regex
  | 0, _ => .epsilon
  | _, [] => .epsilon
  | fuel + 1, cs =>
    let p := parseAtom cs
    match p.2 with
    | '*' :: rest => .cat (.star p.1) (parseSeq fuel rest)
    | '+' :: rest => .cat (.cat p.1 (.star p.1)) (parseSeq fuel rest)
    | rest => .cat p.1 (parseSeq fuel rest)

/-- Parse a pattern string: top-level alternation over `|`, each branch a
sequence of postfixed atoms. -/
def parseRegex (pattern : String) : Regex :=
  let branches := (splitOnCharList '|' pattern.toList).map
    (fun b => parseSeq b.length b)
  match branches with
  | [] => .epsilon
  | b :: bs => bs.foldl Regex.alt b

/-- Model of Python `re.match(pattern, subject) is not None`: unanchored
prefix matching from the start of the subject. -/
def reMatch (pattern subject : String) : Bool :=
  (parseRegex pattern).matchPrefix subject.toList

/-! ## Association-list dictionaries

Python `dict`s are embedded as association lists in insertion order:
`update`/assignment keeps the position of an existing key and appends new
keys at the end, exactly like CPython dictionaries. -/

/-- Python `dict.get(k)`: the value bound to the key, `none` when absent. -/
def lookupKey {β : Type} (d : List (String × β)) (k : String) : Option β :=
  match d with
  | [] => none
  | p :: rest => if p.1 = k then some p.2 else lookupKey rest k

/-- Does the dictionary contain the key? (Python `key in dict`.) -/
def containsKey {β : Type} (d : List (String × β)) (k : String) : Bool :=
  d.any (fun p => p.1 == k)

/-- Python `dict[k] = v`: overwrite in place when the key exists, append
otherwise. -/
def dictInsert {β : Type} (d : List (String × β)) (kv : String × β) :
    List (String × β) :=
  if containsKey d kv.1 then
    d.map (fun p => if p.1 = kv.1 then kv else p)
  else d ++ [kv]

/-- Python `dict.update(e)`: insert every pair of `e` in order. -/
def dictUpdate {β : Type} (d e : List (String × β)) : List (String × β) :=
  e.foldl dictInsert d

/-! ## `CFConfig._get_matching_attributes` (cf_config.py lines 197-212)

```python
references = {}
for pattern, attributes in cf_references.items():
    if re.match(pattern, variable) is not None:
        references.update(attributes)
return references
```

`cf_references` (`_cf_overrides` / `_cf_supplements`) is a dictionary keyed
by pattern string, embedded here as an association list in registration
order. -/

/-- Embedding of `CFConfig._get_matching_attributes`. -/
def getMatchingAttributes (cfReferences : List (String × List (String × String)))
    (variablePath : String) : List (String × String) :=
  cfReferences.foldl
    (fun references pr =>
      if reMatch pr.1 variablePath then dictUpdate references pr.2 else references)
    []

/-- Count of `'/'` characters in a pattern string, the first key of the
specificity order claimed by the specification. -/
def slashCount (pattern : String) : Nat :=
  (pattern.toList.filter (fun c => c == '/')).length

/-- The value an attribute name receives from the *last* registered rule
whose pattern matches the variable and whose attribute map mentions the
name; `none` when no matching rule mentions it. -/
def lastMatchingValue (cfReferences : List (String × List (String × String)))
    (variablePath : String) (name : String) : Option String :=
  match cfReferences.reverse.find?
      (fun pr => reMatch pr.1 variablePath && containsKey pr.2 name) with
  | some pr => lookupKey pr.2 name
  | none => none

example : reMatch ".*" "/group/variable" = true := by decide
example : reMatch "/group/.*" "/group/variable" = true := by decide
example : reMatch "/group/.*" "/other" = false := by decide
example : reMatch ".*/FakeDim\\d+" "/group_one/FakeDim0" = true := by decide
example : reMatch ".*/FakeDim\\d+" "/FakeDim0" = true := by decide
example : reMatch ".*/FakeDim\\d+" "/science" = false := by decide

/-! ## Dictionary lemmas -/

/-- A key is in a dictionary exactly when looking it up succeeds. -/
lemma containsKey_iff_lookup_isSome {β : Type} (d : List (String × β)) (k : String) :
    containsKey d k = true ↔ (lookupKey d k).isSome := by
  induction d with
  | nil => simp [containsKey, lookupKey]
  | cons p rest ih =>
    by_cases h : p.1 = k
    · simp [containsKey, lookupKey, h]
    · have hb : (p.1 == k) = false := by simp [h]
      simp only [containsKey, List.any_cons, hb, Bool.false_or, lookupKey, h,
        if_false]
      exact ih

/-- Looking up a key absent from the dictionary yields `none`. -/
lemma lookup_eq_none_of_not_containsKey {β : Type} {d : List (String × β)}
    {k : String} (h : containsKey d k = false) : lookupKey d k = none := by
  cases hl : lookupKey d k with
  | none => rfl
  | some v =>
    have hs : (lookupKey d k).isSome := by simp [hl]
    rw [← containsKey_iff_lookup_isSome] at hs
    simp [hs] at h

/-- A successful lookup's key is among the dictionary's keys. -/
lemma mem_keys_of_lookup_isSome {β : Type} {d : List (String × β)} {k : String}
    (h : (lookupKey d k).isSome) : k ∈ d.map Prod.fst := by
  induction d with
  | nil => simp [lookupKey] at h
  | cons p rest ih =>
    by_cases hp : p.1 = k
    · simp [hp]
    · simp only [lookupKey, hp, if_false] at h
      simp [ih h]

/-- `lookupKey` distributes over append, preferring the first list. -/
lemma lookupKey_append {β : Type} (d e : List (String × β)) (k : String) :
    lookupKey (d ++ e) k = (lookupKey d k).or (lookupKey e k) := by
  induction d with
  | nil => simp [lookupKey]
  | cons p rest ih =>
    by_cases hp : p.1 = k
    · simp [lookupKey, hp]
    · simp [lookupKey, hp, ih]

/-- Replacing every binding of key `k'` leaves lookups of other keys alone. -/
lemma lookup_map_replace_ne {β : Type} (d : List (String × β)) (k k' : String)
    (v : β) (hne : k ≠ k') :
    lookupKey (d.map (fun p => if p.1 = k' then (k', v) else p)) k =
      lookupKey d k := by
  induction d with
  | nil => simp [lookupKey]
  | cons p rest ih =>
    by_cases ha : p.1 = k'
    · simp [lookupKey, ha, Ne.symm hne, ih]
    · by_cases hk : p.1 = k
      · simp [lookupKey, ha, hk, hne]
      · simp [lookupKey, ha, hk, ih]

/-- Replacing every binding of key `k'` makes looking up `k'` yield the new
value, provided the key occurs. -/
lemma lookup_map_replace_eq {β : Type} (d : List (String × β)) (k' : String)
    (v : β) (hc : containsKey d k' = true) :
    lookupKey (d.map (fun p => if p.1 = k' then (k', v) else p)) k' = some v := by
  induction d with
  | nil => simp [containsKey] at hc
  | cons p rest ih =>
    by_cases ha : p.1 = k'
    · simp [lookupKey, ha]
    · have hc' : containsKey rest k' = true := by
        simpa [containsKey, ha] using hc
      simp [lookupKey, ha, ih hc']

/-- `dictInsert` binds the inserted key and leaves every other key alone. -/
lemma lookup_dictInsert {β : Type} (d : List (String × β)) (k k' : String)
    (v : β) :
    lookupKey (dictInsert d (k', v)) k =
      if k = k' then some v else lookupKey d k := by
  unfold dictInsert
  by_cases hc : containsKey d k' = true
  · by_cases hk : k = k'
    · subst hk
      simp [hc, lookup_map_replace_eq d k v hc]
    · simp [hc, lookup_map_replace_ne d k k' v hk, hk]
  · have hc' : containsKey d k' = false := by simpa using hc
    by_cases hk : k = k'
    · subst hk
      simp [hc', lookupKey_append, lookup_eq_none_of_not_containsKey hc',
        lookupKey]
    · simp [hc', lookupKey_append, lookupKey, hk, Ne.symm hk]

/-- With duplicate-free keys in `e`, `dictUpdate d e` looks up like `e`
first and falls back to `d`. -/
lemma lookup_dictUpdate {β : Type} (d e : List (String × β)) (k : String)
    (hnd : (e.map Prod.fst).Nodup) :
    lookupKey (dictUpdate d e) k = (lookupKey e k).or (lookupKey d k) := by
  induction e generalizing d with
  | nil => simp [dictUpdate, lookupKey]
  | cons p rest ih =>
    obtain ⟨a, b⟩ := p
    have hnd' : (rest.map Prod.fst).Nodup := by
      simpa using hnd.of_cons
    have hstep : dictUpdate d ((a, b) :: rest) =
        dictUpdate (dictInsert d (a, b)) rest := rfl
    rw [hstep, ih (dictInsert d (a, b)) hnd']
    by_cases hk : k = a
    · subst hk
      have hnd2 : (k :: rest.map Prod.fst).Nodup := by simpa using hnd
      have hkn : k ∉ rest.map Prod.fst := (List.nodup_cons.mp hnd2).1
      have hrest : lookupKey rest k = none := by
        cases hl : lookupKey rest k with
        | none => rfl
        | some w => exact absurd (mem_keys_of_lookup_isSome (by simp [hl])) hkn
      simp [hrest, lookup_dictInsert, lookupKey]
    · simp [lookup_dictInsert, hk, lookupKey, Ne.symm hk]

/-! ## C1: conflict resolution among matching override rules -/

/-- Characterisation of the `_get_matching_attributes` fold from an
arbitrary accumulator: an attribute name receives the value from the last
registered matching rule mentioning it, falling back to the accumulator. -/
lemma lookup_getMatchingAttributes_go (variablePath k : String)
    (rules : List (String × List (String × String))) :
    ∀ (acc : List (String × String)),
      (∀ r ∈ rules, (r.2.map Prod.fst).Nodup) →
      lookupKey
        (rules.foldl
          (fun references pr =>
            if reMatch pr.1 variablePath then dictUpdate references pr.2
            else references)
          acc) k =
      (match rules.reverse.find?
          (fun pr => reMatch pr.1 variablePath && containsKey pr.2 k) with
        | some pr => lookupKey pr.2 k
        | none => lookupKey acc k) := by
  induction rules with
  | nil => intro acc _; simp
  | cons pr rest ih =>
    intro acc h
    have hpr : (pr.2.map Prod.fst).Nodup := h pr (by simp)
    have hrest : ∀ r ∈ rest, (r.2.map Prod.fst).Nodup :=
      fun r hr => h r (by simp [hr])
    simp only [List.foldl_cons]
    rw [ih _ hrest]
    cases hf : rest.reverse.find?
        (fun pr => reMatch pr.1 variablePath && containsKey pr.2 k) with
    | some x => simp [List.reverse_cons, List.find?_append, hf]
    | none =>
      simp only [List.reverse_cons, List.find?_append, hf, Option.none_or]
      by_cases hm : reMatch pr.1 variablePath
      · rw [if_pos hm, lookup_dictUpdate _ _ _ hpr]
        by_cases hck : containsKey pr.2 k = true
        · have hs : (lookupKey pr.2 k).isSome :=
            (containsKey_iff_lookup_isSome _ _).mp hck
          obtain ⟨w, hw⟩ := Option.isSome_iff_exists.mp hs
          simp [List.find?, hm, hck, hw]
        · have hnone := lookup_eq_none_of_not_containsKey
            (d := pr.2) (k := k) (by simpa using hck)
          simp [List.find?, hm, hck, hnone]
      · simp [List.find?, hm]

/-- The two-rule configuration used to test the specificity claim: a deep
pattern registered first, a shallow pattern registered second, both binding
the same attribute name (spec §8 Scenario B, registered in reverse order). -/
def c1Rules : List (String × List (String × String)) :=
  [("/group/.*", [("conflicting_attribute", "applies to /group/.*")]),
   (".*", [("conflicting_attribute", "applies to all")])]

/-- Claim C1, counterexample: both patterns match `/group/variable` and
`/group/.*` has strictly more `/` characters, yet
`_get_matching_attributes` returns the *other* rule's value, because the
code iterates the rules in registration order with no specificity sort. -/
theorem c1_counterexample :
    reMatch "/group/.*" "/group/variable" = true ∧
    reMatch ".*" "/group/variable" = true ∧
    slashCount "/group/.*" > slashCount ".*" ∧
    lookupKey (getMatchingAttributes c1Rules "/group/variable")
        "conflicting_attribute" ≠ some "applies to /group/.*" ∧
    lookupKey (getMatchingAttributes c1Rules "/group/variable")
        "conflicting_attribute" = some "applies to all" := by
  refine ⟨by decide, by decide, by decide, by decide, by decide⟩

/-- Claim C1 (amended): for every set of override rules and every path, the
value resolved for an attribute name is the one from the rule *registered
last* among the rules whose pattern matches the path and whose attribute
map mentions the name — the `/`-count and pattern length play no role
(`CFConfig._get_matching_attributes` iterates the rule dictionary in
insertion order and lets later entries overwrite earlier ones). -/
theorem c1_last_registered_rule_wins
    (cfReferences : List (String × List (String × String)))
    (variablePath name : String)
    (hnd : ∀ r ∈ cfReferences, (r.2.map Prod.fst).Nodup) :
    lookupKey (getMatchingAttributes cfReferences variablePath) name =
      lastMatchingValue cfReferences variablePath name := by
  unfold getMatchingAttributes lastMatchingValue
  rw [lookup_getMatchingAttributes_go variablePath name cfReferences [] hnd]
  cases cfReferences.reverse.find?
      (fun pr => reMatch pr.1 variablePath && containsKey pr.2 name) with
  | some pr => rfl
  | none => rfl

/-- Witness for C1's amended theorem at the concrete two-rule store. -/
theorem c1_witness :
    lookupKey (getMatchingAttributes c1Rules "/group/variable")
        "conflicting_attribute" =
      lastMatchingValue c1Rules "/group/variable" "conflicting_attribute" :=
  c1_last_registered_rule_wins c1Rules "/group/variable"
    "conflicting_attribute" (by decide)

/-! ## `CFConfig` construction (cf_config.py)

The configuration document is modelled post-JSON-parsing: an
`Excluded_Science_Variables` / `Required_Fields` section of applicability
items carrying variable patterns, and `CF_Overrides` / `CF_Supplements`
sections of (possibly nested) rule items.  File-system access is abstracted
as a pair of oracles (`exists`, `json.load`), so that construction is a
pure function of the supplied path and oracle. -/

/-- Python's `a or b` for optional strings: `None` and the empty string are
falsy. -/
def pyOr (a b : Option String) : Option String :=
  match a with
  | some s => if s = "" then b else some s
  | none => b

/-- An entry of `Excluded_Science_Variables` or `Required_Fields`: an
`Applicability` object plus a `Variable_Pattern` list.  A missing
`Mission` key (which would make the Python `re.match` call raise) is
treated as not applicable. -/
structure VariablePatternItem where
  mission : Option String
  shortNamePath : Option String
  variablePatterns : List String
deriving Repr, DecidableEq

/-- A `CF_Overrides` / `CF_Supplements` rule item: an `Applicability`
object (`Mission`, `ShortNamePath`, `Variable_Pattern`), an optional
`Attributes` list of Name/Value pairs, an optional `Global_Attributes`
list, and nested child items under `Applicability_Group`. -/
inductive CFItem where
  | mk (mission : Option String) (shortNamePath : Option String)
       (variablePattern : Option String)
       (attributes : Option (List (String × String)))
       (globalAttributes : List (String × String))
       (applicabilityGroup : List CFItem)
deriving Repr

/-- The `Mission` pattern of a rule item's applicability. -/
def CFItem.mission : CFItem → Option String
  | .mk m _ _ _ _ _ => m

/-- The `ShortNamePath` pattern of a rule item's applicability. -/
def CFItem.shortNamePath : CFItem → Option String
  | .mk _ s _ _ _ _ => s

/-- The `Global_Attributes` list of a rule item. -/
def CFItem.globalAttributes : CFItem → List (String × String)
  | .mk _ _ _ _ ga _ => ga

/-- The parsed configuration JSON document. -/
structure ConfigFile where
  excludedScienceVariables : List VariablePatternItem
  requiredFields : List VariablePatternItem
  cfOverrides : List CFItem
  cfSupplements : List CFItem
deriving Repr

/-- The empty configuration document (Python `config = {}`). -/
def emptyConfigFile : ConfigFile :=
  { excludedScienceVariables := [], requiredFields := [],
    cfOverrides := [], cfSupplements := [] }

/-- Errors raised while reading the configuration file
(`varinfo/exceptions.py`). -/
inductive ConfigError where
  | missingConfigurationFile (path : String)
  | invalidConfigFileFormat (path : String)
  | jsonDecodeError (path : String)
deriving Repr, DecidableEq

/-- The file-system oracle: existence of a path, and the parsed document
`json.load` would produce for it (`none` when parsing fails). -/
structure FileSystem where
  fileExists : String → Bool
  jsonLoad : String → Option ConfigFile

/-- Embedding of `CFConfig._is_applicable`: the rule's `Mission` pattern
must `re.match` the instance mission, and its `ShortNamePath` pattern, when
present, must `re.match` the instance short name. -/
def isApplicable (instMission instShortName : String) (mission : String)
    (shortName : Option String) : Bool :=
  let missionMatches := reMatch mission instMission
  let shortNameMatches :=
    match shortName with
    | none => true
    | some sn => reMatch sn instShortName
  missionMatches && shortNameMatches

/-- Embedding of `CFConfig._create_attributes_object`: a dictionary built
from the `Attributes` list of Name/Value pairs. -/
def createAttributesObject (attributeList : List (String × String)) :
    List (String × String) :=
  attributeList.foldl dictInsert []

mutual

/-- Embedding of `CFConfig._process_cf_item`: inherit missing applicability
fields from the parent, test applicability, record the attribute object
under the item's variable pattern (default `.*`), and recurse into the
nested `Applicability_Group` items. -/
def processCFItem (instMission instShortName : String) (item : CFItem)
    (inputMission inputShortName : Option String)
    (results : List (String × List (String × String))) :
    List (String × List (String × String)) :=
  match item with
  | .mk m s vp attrs _ga children =>
    let mission := pyOr m inputMission
    let shortName := pyOr s inputShortName
    match mission with
    | none => results
    | some missionVal =>
      if isApplicable instMission instShortName missionVal shortName then
        let pattern := vp.getD ".*"
        let results' :=
          match attrs with
          | some attributeList =>
            dictInsert results (pattern, createAttributesObject attributeList)
          | none => results
        processCFItems instMission instShortName children (some missionVal)
          shortName results'
      else results

/-- Process a list of nested rule items in order, threading the results
dictionary (the `for cf_reference in cf_references` loop). -/
def processCFItems (instMission instShortName : String) (items : List CFItem)
    (inputMission inputShortName : Option String)
    (results : List (String × List (String × String))) :
    List (String × List (String × String)) :=
  match items with
  | [] => results
  | i :: rest =>
    processCFItems instMission instShortName rest inputMission inputShortName
      (processCFItem instMission instShortName i inputMission inputShortName
        results)

end

/-- The first half of `CFConfig._read_config_file`: locate and parse the
configuration document, raising `MissingConfigurationFileError` for an
absent path and `InvalidConfigFileFormatError` for a non-`.json` path. -/
def readConfigDocument (fs : FileSystem) (configFile : Option String) :
    Except ConfigError ConfigFile :=
  match configFile with
  | some path =>
    if !fs.fileExists path then .error (.missingConfigurationFile path)
    else if strEndsWith path ".json" then
      match fs.jsonLoad path with
      | some config => .ok config
      | none => .error (.jsonDecodeError path)
    else .error (.invalidConfigFileFormat path)
  | none => .ok emptyConfigFile

/-- The state of a `CFConfig` instance after `__init__`: the rule store for
one (mission, collection short name) pair. -/
structure CFConfigData where
  configFile : Option String
  mission : Option String
  shortName : String
  cfOverridesRules : List (String × List (String × String))
  cfSupplementsRules : List (String × List (String × String))
  excludedScienceVariables : List String
  requiredVariables : List String
  globalSupplements : List (String × String)
  globalOverrides : List (String × String)
deriving Repr, DecidableEq

/-- The second half of `CFConfig._read_config_file`: extract from a parsed
document the parts applicable to the instance mission and short name. -/
def buildCFConfig (configFile : Option String) (mission shortName : String)
    (config : ConfigFile) : CFConfigData :=
  { configFile := configFile
    mission := some mission
    shortName := shortName
    excludedScienceVariables :=
      (((config.excludedScienceVariables.filter
          (fun item =>
            match item.mission with
            | some m => isApplicable mission shortName m item.shortNamePath
            | none => false)).map
        (fun item => item.variablePatterns)).flatten).dedup
    requiredVariables :=
      (((config.requiredFields.filter
          (fun item =>
            match item.mission with
            | some m => isApplicable mission shortName m item.shortNamePath
            | none => false)).map
        (fun item => item.variablePatterns)).flatten).dedup
    globalSupplements :=
      (((config.cfSupplements.filter
          (fun item =>
            match item.mission with
            | some m => isApplicable mission shortName m item.shortNamePath
            | none => false)).map
        (fun item => item.globalAttributes)).flatten).foldl dictInsert []
    globalOverrides :=
      (((config.cfOverrides.filter
          (fun item =>
            match item.mission with
            | some m => isApplicable mission shortName m item.shortNamePath
            | none => false)).map
        (fun item => item.globalAttributes)).flatten).foldl dictInsert []
    cfOverridesRules :=
      config.cfOverrides.foldl
        (fun acc item => processCFItem mission shortName item none none acc) []
    cfSupplementsRules :=
      config.cfSupplements.foldl
        (fun acc item => processCFItem mission shortName item none none acc) [] }

/-- Embedding of `CFConfig.__init__`: set empty defaults and read the
configuration file only when a mission is known. -/
def cfConfigInit (mission : Option String) (collectionShortName : String)
    (configFile : Option String) (fs : FileSystem) :
    Except ConfigError CFConfigData :=
  match mission with
  | none =>
    .ok { configFile := configFile
          mission := none
          shortName := collectionShortName
          cfOverridesRules := []
          cfSupplementsRules := []
          excludedScienceVariables := []
          requiredVariables := []
          globalSupplements := []
          globalOverrides := [] }
  | some m =>
    match readConfigDocument fs configFile with
    | .error e => .error e
    | .ok config =>
      .ok (buildCFConfig configFile m collectionShortName config)

/-- Claim C5 (confirmed): constructing a `CFConfig` with an unknown
(`None`) mission returns the empty store — no exclusion patterns, no
required patterns, no override or supplement rules — without consulting the
file system at all, so no `MissingConfigurationFileError` or
`InvalidConfigFileFormatError` can be raised, whatever the supplied path
and whatever the file system contains. -/
theorem c5_none_mission_yields_empty_store (collectionShortName : String)
    (configFile : Option String) (fs : FileSystem) :
    cfConfigInit none collectionShortName configFile fs =
      .ok { configFile := configFile
            mission := none
            shortName := collectionShortName
            cfOverridesRules := []
            cfSupplementsRules := []
            excludedScienceVariables := []
            requiredVariables := []
            globalSupplements := []
            globalOverrides := [] } := rfl

/-! ## `VariableBase` attribute construction (variable.py)

`_get_attributes` builds the attributes dictionary by applying
`_get_configured_attribute` to every raw attribute, and
`_get_additional_attributes` then adds configuration attributes missing
from the granule metadata (`_add_missing_attributes`).  `cfOverrides` and
`cfSupplements` below are the dictionaries already matched to this
variable's full path by `CFConfig.get_cf_attributes`.  Raw attribute
values are `Option String` because an attribute may be present with a
`None` value. -/

/-- Embedding of `VariableBase._get_configured_attribute` (variable.py
lines 256-278): an override *replaces* the raw value; a supplement is
appended to whichever value survived, or stands alone when there is no
value. -/
def getConfiguredAttribute (cfOverrides cfSupplements : List (String × String))
    (attributeName : String) (rawAttributeValue : Option String) :
    Option String :=
  let cfOverride := lookupKey cfOverrides attributeName
  let cfSupplement := lookupKey cfSupplements attributeName
  let attributeValue :=
    match cfOverride with
    | some v => some v
    | none => rawAttributeValue
  match cfSupplement, attributeValue with
  | some s, some v => some (v ++ ", " ++ s)
  | some s, none => some s
  | none, v => v

/-- Embedding of `_get_attributes`: every raw attribute name is mapped to
its configured value. -/
def getAttributes (cfOverrides cfSupplements : List (String × String))
    (rawAttributes : List (String × Option String)) :
    List (String × Option String) :=
  rawAttributes.map
    (fun p => (p.1, getConfiguredAttribute cfOverrides cfSupplements p.1 p.2))

/-- Embedding of `VariableBase._add_missing_attributes` (variable.py lines
101-111): configuration attributes absent from the dictionary are added;
present keys are left untouched. -/
def addMissingAttributes (attributes : List (String × Option String))
    (extraAttributes : List (String × String)) :
    List (String × Option String) :=
  extraAttributes.foldl
    (fun acc p => if containsKey acc p.1 then acc else acc ++ [(p.1, some p.2)])
    attributes

/-- The attributes dictionary of a constructed variable: `_get_attributes`
followed by `_get_additional_attributes` (which calls
`_add_missing_attributes` on the overrides and then on the supplements). -/
def buildVariableAttributes (cfOverrides cfSupplements : List (String × String))
    (rawAttributes : List (String × Option String)) :
    List (String × Option String) :=
  addMissingAttributes
    (addMissingAttributes (getAttributes cfOverrides cfSupplements rawAttributes)
      cfOverrides)
    cfSupplements

/-! ## Reference qualification (variable.py lines 319-377) -/

/-- The loop of `VariableBase._construct_absolute_path`: strip one leading
`../` and pop one trailing group-path piece per iteration.  Fuel bounds the
loop; each iteration removes three characters, so the reference length
suffices.  (Python raises `IndexError` when `pop` hits an empty list;
`dropLast` is a no-op there instead.) -/
def constructAbsolutePathGo : Nat → List String → String → String
  | 0, pieces, reference => joinChar '/' (pieces ++ [reference])
  | fuel + 1, pieces, reference =>
    if strStartsWith reference "../" then
      constructAbsolutePathGo fuel pieces.dropLast
        (String.mk (reference.toList.drop 3))
    else joinChar '/' (pieces ++ [reference])

/-- Embedding of `VariableBase._construct_absolute_path`. -/
def constructAbsolutePath (groupPath reference : String) : String :=
  constructAbsolutePathGo reference.toList.length
    (strSplitOnChar '/' groupPath) reference

/-- Embedding of the per-reference body of
`VariableBase._qualify_references`: strip trailing colons, then resolve the
four reference styles against the variable's group path (`none` when the
variable sits at the root). -/
def qualifyReference (groupPath : Option String) (rawReference : String) :
    String :=
  let reference := rstripColon rawReference
  match groupPath with
  | some gp =>
    if strStartsWith reference "../" then constructAbsolutePath gp reference
    else if strStartsWith reference "/" then reference
    else if strStartsWith reference "./" then
      gp ++ String.mk (reference.toList.drop 1)
    else gp ++ "/" ++ reference
  | none =>
    if strStartsWith reference "/" then reference
    else "/" ++ reference

/-- Embedding of `VariableBase._qualify_references` on a reference list. -/
def qualifyReferences (groupPath : Option String)
    (rawReferences : List String) : List String :=
  rawReferences.map (qualifyReference groupPath)

/-! ## C2: override-vs-raw precedence -/

/-- `containsKey` distributes over append. -/
lemma containsKey_append {β : Type} (d e : List (String × β)) (k : String) :
    containsKey (d ++ e) k = (containsKey d k || containsKey e k) := by
  simp [containsKey, List.any_append]

/-- Looking up a raw attribute name in the `_get_attributes` result yields
its configured value. -/
lemma lookup_getAttributes (cfOverrides cfSupplements : List (String × String)) :
    ∀ (rawAttributes : List (String × Option String)) (name : String)
      (rawValue : Option String),
      (rawAttributes.map Prod.fst).Nodup → (name, rawValue) ∈ rawAttributes →
      lookupKey (getAttributes cfOverrides cfSupplements rawAttributes) name =
        some (getConfiguredAttribute cfOverrides cfSupplements name rawValue) := by
  intro raw
  induction raw with
  | nil => intro name rawValue _ hmem; simp at hmem
  | cons p rest ih =>
    intro name rawValue hnd hmem
    have hnd2 : (p.1 :: rest.map Prod.fst).Nodup := by simpa using hnd
    by_cases hp : p.1 = name
    · rcases List.mem_cons.mp hmem with heq | hmemr
      · subst heq
        simp [getAttributes, lookupKey]
      · exfalso
        have : name ∈ rest.map Prod.fst :=
          List.mem_map_of_mem Prod.fst hmemr
        exact (List.nodup_cons.mp hnd2).1 (hp ▸ this)
    · rcases List.mem_cons.mp hmem with heq | hmemr
      · exact absurd (congrArg Prod.fst heq).symm hp
      · have := ih name rawValue (List.nodup_cons.mp hnd2).2 hmemr
        simpa [getAttributes, lookupKey, hp] using this

/-- `_add_missing_attributes` never changes the binding of a key already in
the dictionary. -/
lemma lookup_addMissingAttributes (extraAttributes : List (String × String)) :
    ∀ (attributes : List (String × Option String)) (name : String),
      containsKey attributes name = true →
      lookupKey (addMissingAttributes attributes extraAttributes) name =
        lookupKey attributes name := by
  induction extraAttributes with
  | nil => intro attributes name _; rfl
  | cons q rest ih =>
    intro attributes name hck
    have hstep : addMissingAttributes attributes (q :: rest) =
        addMissingAttributes
          (if containsKey attributes q.1 then attributes
           else attributes ++ [(q.1, some q.2)]) rest := rfl
    rw [hstep]
    by_cases hq : containsKey attributes q.1 = true
    · rw [if_pos hq]
      exact ih attributes name hck
    · rw [if_neg hq]
      have hck' : containsKey (attributes ++ [(q.1, some q.2)]) name = true := by
        simp [containsKey_append, hck]
      rw [ih _ name hck', lookupKey_append]
      have hs : (lookupKey attributes name).isSome :=
        (containsKey_iff_lookup_isSome _ _).mp hck
      obtain ⟨w, hw⟩ := Option.isSome_iff_exists.mp hs
      simp [hw]

/-- Claim C2, counterexample: a raw attribute (`units = "seconds"`) whose
name also carries a resolved override (`units = "days"`) does **not** keep
its raw value in the constructed attributes dictionary —
`_get_configured_attribute` lets the override replace the raw value. -/
theorem c2_counterexample :
    ("units", (some "seconds" : Option String)) ∈
        ([("units", (some "seconds" : Option String))] :
          List (String × Option String)) ∧
    containsKey [("units", "days")] "units" = true ∧
    lookupKey (buildVariableAttributes [("units", "days")] []
        [("units", some "seconds")]) "units" ≠ some (some "seconds") ∧
    lookupKey (buildVariableAttributes [("units", "days")] []
        [("units", some "seconds")]) "units" = some (some "days") := by
  refine ⟨by decide, by decide, by decide, by decide⟩

/-- Claim C2 (amended): for every attribute name present in the raw source
attributes, the constructed variable's attributes map holds the *configured*
value of `_get_configured_attribute`: the override value (with any
supplement appended) when a matching override exists, and the raw value
only when no override matches; the later `_add_missing_attributes` passes
add only names absent from the map and never touch present keys. -/
theorem c2_override_replaces_raw_value
    (cfOverrides cfSupplements : List (String × String))
    (rawAttributes : List (String × Option String)) (name : String)
    (rawValue : Option String)
    (hnd : (rawAttributes.map Prod.fst).Nodup)
    (hmem : (name, rawValue) ∈ rawAttributes) :
    lookupKey (buildVariableAttributes cfOverrides cfSupplements rawAttributes)
        name =
      some (getConfiguredAttribute cfOverrides cfSupplements name rawValue) := by
  have h1 := lookup_getAttributes cfOverrides cfSupplements rawAttributes name
    rawValue hnd hmem
  have hck1 : containsKey (getAttributes cfOverrides cfSupplements rawAttributes)
      name = true :=
    (containsKey_iff_lookup_isSome _ _).mpr (by simp [h1])
  have h2 := lookup_addMissingAttributes cfOverrides _ name hck1
  have hck2 : containsKey
      (addMissingAttributes (getAttributes cfOverrides cfSupplements
        rawAttributes) cfOverrides) name = true :=
    (containsKey_iff_lookup_isSome _ _).mpr (by simp [h2, h1])
  have h3 := lookup_addMissingAttributes cfSupplements _ name hck2
  unfold buildVariableAttributes
  rw [h3, h2, h1]

/-- Witness for C2's amended theorem at the concrete counterexample input. -/
theorem c2_witness :
    lookupKey (buildVariableAttributes [("units", "days")] []
        [("units", some "seconds")]) "units" =
      some (getConfiguredAttribute [("units", "days")] [] "units"
        (some "seconds")) :=
  c2_override_replaces_raw_value [("units", "days")] []
    [("units", some "seconds")] "units" (some "seconds") (by decide) (by decide)

/-! ## C7: idempotent qualification of absolute references -/

/-- `dropWhile` is idempotent. -/
lemma dropWhile_dropWhile (p : Char → Bool) (l : List Char) :
    (l.dropWhile p).dropWhile p = l.dropWhile p := by
  induction l with
  | nil => simp
  | cons c t ih =>
    by_cases h : p c
    · simp [List.dropWhile_cons, h, ih]
    · simp [List.dropWhile_cons, h]

/-- `dropWhile` keeps a final element that fails the predicate. -/
lemma dropWhile_append_singleton (p : Char → Bool) (a : Char)
    (h : p a = false) (l : List Char) :
    (l ++ [a]).dropWhile p = l.dropWhile p ++ [a] := by
  induction l with
  | nil => simp [List.dropWhile_cons, h]
  | cons c t ih =>
    by_cases hc : p c
    · simp [List.dropWhile_cons, hc, ih]
    · simp [List.dropWhile_cons, hc]

/-- Stripping trailing colons is idempotent. -/
lemma rstripColon_idem (s : String) :
    rstripColon (rstripColon s) = rstripColon s := by
  unfold rstripColon
  show String.mk
      (((((s.toList.reverse.dropWhile (fun c => c == ':')).reverse) :
        List Char).reverse.dropWhile (fun c => c == ':')).reverse) = _
  rw [List.reverse_reverse, dropWhile_dropWhile]

/-- A string starting with `/` has a leading slash in its character list. -/
lemma startsWith_slash_toList {s : String}
    (h : strStartsWith s "/" = true) : ∃ cs, s.toList = '/' :: cs := by
  unfold strStartsWith at h
  rw [show "/".toList = ['/'] from rfl] at h
  cases hl : s.toList with
  | nil => rw [hl] at h; simp [List.isPrefixOf] at h
  | cons c cs =>
    rw [hl] at h
    simp [List.isPrefixOf] at h
    exact ⟨cs, by rw [h]⟩

/-- Stripping trailing colons preserves a leading slash. -/
lemma rstripColon_startsWith_slash {s : String}
    (h : strStartsWith s "/" = true) :
    strStartsWith (rstripColon s) "/" = true := by
  obtain ⟨cs, hcs⟩ := startsWith_slash_toList h
  unfold rstripColon strStartsWith
  rw [hcs]
  show ("/".toList).isPrefixOf
    ((String.mk (((('/' :: cs).reverse).dropWhile (fun c => c == ':')).reverse)).toList) = true
  rw [show "/".toList = ['/'] from rfl]
  show List.isPrefixOf ['/']
    (((('/' :: cs).reverse).dropWhile (fun c => c == ':')).reverse) = true
  rw [List.reverse_cons, dropWhile_append_singleton _ '/' (by decide),
    List.reverse_append]
  simp [List.isPrefixOf]

/-- A string with a leading slash starts with neither `../` nor `./`. -/
lemma startsWith_slash_not_dots {s : String}
    (h : strStartsWith s "/" = true) :
    strStartsWith s "../" = false ∧ strStartsWith s "./" = false := by
  obtain ⟨cs, hcs⟩ := startsWith_slash_toList h
  constructor
  · unfold strStartsWith
    rw [hcs, show "../".toList = ['.', '.', '/'] from rfl]
    simp [List.isPrefixOf]
  · unfold strStartsWith
    rw [hcs, show "./".toList = ['.', '/'] from rfl]
    simp [List.isPrefixOf]

/-- Qualifying an absolute reference only strips its trailing colons. -/
lemma qualifyReference_of_startsWith_slash (groupPath : Option String)
    (rawReference : String) (h : strStartsWith rawReference "/" = true) :
    qualifyReference groupPath rawReference = rstripColon rawReference := by
  have hs : strStartsWith (rstripColon rawReference) "/" = true :=
    rstripColon_startsWith_slash h
  obtain ⟨hd1, _⟩ := startsWith_slash_not_dots hs
  unfold qualifyReference
  cases groupPath with
  | some gp => simp [hd1, hs]
  | none => simp [hs]

/-- Claim C7 (confirmed): reference qualification is idempotent on
references that are already absolute (begin with `/`), for every group
path (including the root, `none`). -/
theorem c7_qualification_idempotent (groupPath : Option String)
    (reference : String) (h : strStartsWith reference "/" = true) :
    qualifyReference groupPath (qualifyReference groupPath reference) =
      qualifyReference groupPath reference := by
  rw [qualifyReference_of_startsWith_slash groupPath reference h]
  have h' : strStartsWith (rstripColon reference) "/" = true :=
    rstripColon_startsWith_slash h
  rw [qualifyReference_of_startsWith_slash groupPath _ h', rstripColon_idem]

/-- Witness for C7 at a concrete absolute reference and group path. -/
theorem c7_witness :
    qualifyReference (some "/gt1r/heights")
        (qualifyReference (some "/gt1r/heights") "/gt1r/latitude") =
      qualifyReference (some "/gt1r/heights") "/gt1r/latitude" :=
  c7_qualification_idempotent (some "/gt1r/heights") "/gt1r/latitude"
    (by decide)

/-! ## Variables and the granule graph (variable.py / var_info.py)

A constructed variable is embedded by the fields the `VarInfoBase` queries
consume: its full path, its qualified dimension list (order preserved), its
attributes dictionary (values may be `None`), and its reference dictionary
(CF reference attribute name → set of qualified paths, present exactly for
the reference attributes occurring in `attributes`). -/

/-- A constructed `VariableBase` object. -/
structure GVariable where
  full_name_path : String
  dimensions : List String
  attributes : List (String × Option String)
  references : List (String × List String)
deriving Repr, DecidableEq

/-- Python `self.attributes.get(name)`: absent keys and keys stored with a
`None` value both read back as `None`. -/
def GVariable.getAttribute (v : GVariable) (name : String) : Option String :=
  (lookupKey v.attributes name).join

/-- Embedding of `VariableBase.is_latitude`: the `units` attribute is one
of the CF latitude spellings. -/
def GVariable.isLatitude (v : GVariable) : Bool :=
  match v.getAttribute "units" with
  | some u =>
    ["degrees_north", "degree_north", "degrees_N", "degree_N", "degreesN",
      "degreeN"].contains u
  | none => false

/-- Embedding of `VariableBase.is_longitude`. -/
def GVariable.isLongitude (v : GVariable) : Bool :=
  match v.getAttribute "units" with
  | some u =>
    ["degrees_east", "degree_east", "degrees_E", "degree_E", "degreesE",
      "degreeE"].contains u
  | none => false

/-- Embedding of `VariableBase.is_geographic`. -/
def GVariable.isGeographic (v : GVariable) : Bool :=
  v.isLongitude || v.isLatitude

/-- Embedding of `VariableBase.is_projection_x_or_y`. -/
def GVariable.isProjectionXOrY (v : GVariable) : Bool :=
  match v.getAttribute "standard_name" with
  | some sn =>
    ["projection_x_coordinate", "projection_x_angular_coordinate",
      "projection_y_coordinate", "projection_y_angular_coordinate"].contains sn
  | none => false

/-- Embedding of `VariableBase.is_temporal`: `' since '` occurs in the
`units` value (defaulting to the empty string when absent). -/
def GVariable.isTemporal (v : GVariable) : Bool :=
  strContains ((v.getAttribute "units").getD "") " since "

/-- Embedding of `VariableBase.get_references`: the dimensions and every
reference set, combined into one set. -/
def GVariable.getReferences (v : GVariable) : List String :=
  (v.dimensions ++ (v.references.map Prod.snd).flatten).dedup

/-- The state of a `VarInfoBase` instance used by the closure queries: the
variable dictionary, the set of referenced paths, and the `CFConfig`
store. -/
structure VarInfoData where
  variablesDict : List (String × GVariable)
  references : List String
  cfConfig : CFConfigData

/-- Embedding of `VarInfoBase.get_variable`. -/
def getVariable (g : VarInfoData) (variablePath : String) : Option GVariable :=
  lookupKey g.variablesDict variablePath

/-- Embedding of `VarInfoBase.get_all_variables`. -/
def getAllVariables (g : VarInfoData) : List String :=
  (g.variablesDict.map Prod.fst).dedup

/-- Embedding of `VarInfoBase._is_spatial_temporal_dimension`. -/
def isSpatialTemporalDimension (g : VarInfoData) (dimensionPath : String) :
    Bool :=
  match getVariable g dimensionPath with
  | none => false
  | some dimension =>
    dimension.isGeographic || dimension.isTemporal ||
      dimension.isProjectionXOrY

/-- Embedding of `VarInfoBase.is_science_variable` (var_info.py lines
194-216).  Note the generator filter tests `variable.full_name_path`, the
variable's *own* path, for the `_bnds` suffix — not the dimension name. -/
def isScienceVariable (g : VarInfoData) (v : GVariable) : Bool :=
  if (v.dimensions.filter
      (fun dimension =>
        dimension != v.full_name_path &&
          !(strEndsWith v.full_name_path "_bnds"))).any
      (fun dimension => isSpatialTemporalDimension g dimension) then
    true
  else if (lookupKey v.references "coordinates").isSome ||
      (lookupKey v.references "grid_mapping").isSome then
    true
  else
    false

/-- Embedding of `VarInfoBase.variable_is_excluded` (var_info.py lines
266-279): the compiled alternation of the exclusion patterns, with the
empty pattern special-cased to "exclude nothing". -/
def variableIsExcluded (variableName exclusionsPattern : String) : Bool :=
  if exclusionsPattern ≠ "" then reMatch exclusionsPattern variableName
  else false

/-- Embedding of `VarInfoBase.get_science_variables` (var_info.py lines
218-236). -/
def getScienceVariables (g : VarInfoData) : List String :=
  let exclusionsPattern := joinChar '|' g.cfConfig.excludedScienceVariables
  (((g.variablesDict.filter
      (fun pv =>
        isScienceVariable g pv.2 &&
          !(variableIsExcluded pv.1 exclusionsPattern))).map
    Prod.fst).dedup).filter (fun p => !(g.references.contains p))

/-- Embedding of `VarInfoBase.get_metadata_variables` (var_info.py lines
238-264). -/
def getMetadataVariables (g : VarInfoData) : List String :=
  let exclusionsPattern := joinChar '|' g.cfConfig.excludedScienceVariables
  (((g.variablesDict.filter
      (fun pv =>
        !(variableIsExcluded pv.1 exclusionsPattern) &&
          !(isScienceVariable g pv.2) &&
          !(strEndsWith pv.2.full_name_path "_bnds"))).map
    Prod.fst).dedup).filter (fun p => !(g.references.contains p))

/-- The fake-dimension pattern of `VarInfoBase.exclude_fake_dimensions`. -/
def fakeDimPattern : String := ".*/FakeDim\\d+"

/-- Embedding of `VarInfoBase.exclude_fake_dimensions` (var_info.py lines
506-518). -/
def excludeFakeDimensions (variableSet : List String) : List String :=
  variableSet.filter (fun variablePath => !(reMatch fakeDimPattern variablePath))

/-- The `while` loop of `get_required_variables`: pop a path, add it to the
required set, and enqueue its references that exist as variables and are
not already required or queued.  The worklist models the mutable
`requested_variables` set; the pair returned is (required set, final state
of the worklist).  Fuel bounds the iterations: each one moves a fresh
element into the required set, so the iterations cannot exceed the number
of candidate paths and the fuel chosen by `getRequiredVariables` is never
exhausted (`requiredLoop_spec`). -/
def requiredLoop (g : VarInfoData) :
    Nat → List String → List String → List String × List String
  | 0, requestedVariables, requiredVariables =>
    (requiredVariables, requestedVariables)
  | _ + 1, [], requiredVariables => (requiredVariables, [])
  | fuel + 1, variableName :: rest, requiredVariables =>
    let required' := variableName :: requiredVariables
    match getVariable g variableName with
    | none => requiredLoop g fuel rest required'
    | some variableObj =>
      let variableReferences :=
        (variableObj.getReferences).filter
          (fun reference => (getVariable g reference).isSome)
      let newItems :=
        variableReferences.filter
          (fun reference =>
            !(required'.contains reference) && !(rest.contains reference))
      requiredLoop g fuel (rest ++ newItems) required'

/-- The collection-required seed of `get_required_variables`: every
existing variable path matching the alternation of the configured
required-variable patterns (empty when no pattern is configured). -/
def cfRequiredVariables (g : VarInfoData) : List String :=
  if g.cfConfig.requiredVariables.isEmpty then []
  else
    let cfRequiredPattern := joinChar '|' g.cfConfig.requiredVariables
    (getAllVariables g).filter
      (fun variablePath => reMatch cfRequiredPattern variablePath)

/-- The state of the caller's `requested_variables` set after
`requested_variables.update(cf_required_variables)`. -/
def seededRequested (g : VarInfoData) (requestedVariables : List String) :
    List String :=
  (requestedVariables ++ cfRequiredVariables g).dedup

/-- Every path that can ever enter the worklist: the seeded request plus
all existing variable paths.  Its size bounds the loop iterations. -/
def requiredCandidates (g : VarInfoData) (requestedVariables : List String) :
    List String :=
  (seededRequested g requestedVariables ++ getAllVariables g).dedup

/-- Embedding of `VarInfoBase.get_required_variables` (var_info.py lines
281-327), with the mutated `requested_variables` set made explicit: the
result is the pair (returned set, final state of the caller's requested
set). -/
def getRequiredVariables (g : VarInfoData) (requestedVariables : List String) :
    List String × List String :=
  let p := requiredLoop g ((requiredCandidates g requestedVariables).length + 1)
    (seededRequested g requestedVariables) []
  (excludeFakeDimensions p.1, p.2)

/-! ## C3: characterisation of `is_science_variable` -/

/-- The science-variable predicate as worded by the specification and claim
C3: the `_bnds` exclusion applies to the *dimension name*, and clause (b)
requires a *non-empty* `coordinates` / `grid_mapping` reference set.  This
definition exists only to be compared with the source's
`isScienceVariable`. -/
def specIsScienceVariable (g : VarInfoData) (v : GVariable) : Bool :=
  (v.dimensions.any
    (fun dimension =>
      dimension != v.full_name_path && !(strEndsWith dimension "_bnds") &&
        isSpatialTemporalDimension g dimension)) ||
  (match lookupKey v.references "coordinates" with
    | some refs => !refs.isEmpty
    | none => false) ||
  (match lookupKey v.references "grid_mapping" with
    | some refs => !refs.isEmpty
    | none => false)

/-- The empty `CFConfig` store, as produced for an unknown mission. -/
def emptyCFConfigData : CFConfigData :=
  { configFile := none
    mission := none
    shortName := ""
    cfOverridesRules := []
    cfSupplementsRules := []
    excludedScienceVariables := []
    requiredVariables := []
    globalSupplements := []
    globalOverrides := [] }

/-- A latitude variable whose path ends in `_bnds`. -/
def c3BndsVariable : GVariable :=
  { full_name_path := "/bar_bnds"
    dimensions := []
    attributes := [("units", some "degrees_north")]
    references := [] }

/-- A variable whose only dimension is the `_bnds`-suffixed latitude. -/
def c3Variable : GVariable :=
  { full_name_path := "/foo"
    dimensions := ["/bar_bnds"]
    attributes := []
    references := [] }

/-- The graph holding only the `_bnds`-suffixed latitude variable. -/
def c3Graph : VarInfoData :=
  { variablesDict := [("/bar_bnds", c3BndsVariable)]
    references := []
    cfConfig := emptyCFConfigData }

/-- Claim C3, counterexample: `/foo` has exactly one dimension,
`/bar_bnds`, which ends in `_bnds` and so should be excluded per the
claim — yet the code returns `true`, because its filter tests the
variable's own path (`/foo`) for the `_bnds` suffix rather than the
dimension's name. -/
theorem c3_counterexample :
    isScienceVariable c3Graph c3Variable = true ∧
    specIsScienceVariable c3Graph c3Variable = false := by
  refine ⟨by decide, by decide⟩

/-- Claim C3 (amended): `is_science_variable(v)` is true iff either (a)
v's own path does not end in `_bnds` and some dimension different from v's
own full path resolves to a geographic, temporal or projected variable
(the `_bnds` test applies to v's own path, not to the dimension name), or
(b) v's reference dictionary has an entry — empty or not — for
`coordinates` or `grid_mapping`. -/
theorem c3_science_variable_characterisation (g : VarInfoData)
    (v : GVariable) :
    isScienceVariable g v = true ↔
      ((strEndsWith v.full_name_path "_bnds" = false ∧
        ∃ d ∈ v.dimensions, d ≠ v.full_name_path ∧
          isSpatialTemporalDimension g d = true) ∨
       (lookupKey v.references "coordinates").isSome = true ∨
       (lookupKey v.references "grid_mapping").isSome = true) := by
  have hb : isScienceVariable g v =
      ((v.dimensions.filter
        (fun dimension =>
          dimension != v.full_name_path &&
            !(strEndsWith v.full_name_path "_bnds"))).any
        (fun dimension => isSpatialTemporalDimension g dimension) ||
       ((lookupKey v.references "coordinates").isSome ||
        (lookupKey v.references "grid_mapping").isSome)) := by
    unfold isScienceVariable
    by_cases h1 : (v.dimensions.filter
        (fun dimension =>
          dimension != v.full_name_path &&
            !(strEndsWith v.full_name_path "_bnds"))).any
        (fun dimension => isSpatialTemporalDimension g dimension) = true
    · simp [h1]
    · by_cases h2 : ((lookupKey v.references "coordinates").isSome ||
          (lookupKey v.references "grid_mapping").isSome) = true
      · simp [h1, h2]
      · simp [h1, h2]
  rw [hb]
  cases hend : strEndsWith v.full_name_path "_bnds" with
  | true => simp [List.any_filter, hend]
  | false =>
    simp [List.any_filter, hend, List.any_eq_true, bne_iff_ne, and_assoc]

/-! ## C8: science and metadata partitions are disjoint -/

/-- In a dictionary with duplicate-free keys, a key determines its value. -/
lemma mem_pair_unique {β : Type} {l : List (String × β)}
    (hnd : (l.map Prod.fst).Nodup) {p : String} {v1 v2 : β}
    (h1 : (p, v1) ∈ l) (h2 : (p, v2) ∈ l) : v1 = v2 := by
  induction l with
  | nil => simp at h1
  | cons q rest ih =>
    have hnd2 : (q.1 :: rest.map Prod.fst).Nodup := by simpa using hnd
    rcases List.mem_cons.mp h1 with he1 | hr1
    · rcases List.mem_cons.mp h2 with he2 | hr2
      · exact congrArg Prod.snd (he1.trans he2.symm)
      · exfalso
        have : p ∈ rest.map Prod.fst := List.mem_map_of_mem Prod.fst hr2
        have hq : q.1 = p := congrArg Prod.fst he1.symm
        exact (List.nodup_cons.mp hnd2).1 (hq ▸ this)
    · rcases List.mem_cons.mp h2 with he2 | hr2
      · exfalso
        have : p ∈ rest.map Prod.fst := List.mem_map_of_mem Prod.fst hr1
        have hq : q.1 = p := congrArg Prod.fst he2.symm
        exact (List.nodup_cons.mp hnd2).1 (hq ▸ this)
      · exact ih (List.nodup_cons.mp hnd2).2 hr1 hr2

/-- Claim C8 (confirmed): for a graph whose variable dictionary has unique
keys (as Python dictionaries do), no path is returned both by
`get_science_variables` and by `get_metadata_variables` — the former
requires `is_science_variable` to hold of the path's variable and the
latter requires it to fail. -/
theorem c8_science_metadata_disjoint (g : VarInfoData) (p : String)
    (hnd : (g.variablesDict.map Prod.fst).Nodup)
    (hmem : p ∈ getScienceVariables g) : p ∉ getMetadataVariables g := by
  intro hmeta
  unfold getScienceVariables at hmem
  unfold getMetadataVariables at hmeta
  simp only [List.mem_filter, List.mem_dedup, List.mem_map] at hmem hmeta
  obtain ⟨⟨pv, hpv_filter, hpv_fst⟩, _⟩ := hmem
  obtain ⟨⟨qv, hqv_filter, hqv_fst⟩, _⟩ := hmeta
  have hpv := hpv_filter
  have hqv := hqv_filter
  have hsci : isScienceVariable g pv.2 = true := by
    have hconj := hpv.2
    simp only [Bool.and_eq_true] at hconj
    exact hconj.1
  have hnot : isScienceVariable g qv.2 = false := by
    have hconj := hqv.2
    simp only [Bool.and_eq_true] at hconj
    simpa using hconj.1.2
  have hpv_pair : (p, pv.2) ∈ g.variablesDict := by
    have : pv = (p, pv.2) := by
      rw [← hpv_fst]
    exact this ▸ hpv.1
  have hqv_pair : (p, qv.2) ∈ g.variablesDict := by
    have : qv = (p, qv.2) := by
      rw [← hqv_fst]
    exact this ▸ hqv.1
  have := mem_pair_unique hnd hpv_pair hqv_pair
  rw [this, hnot] at hsci
  exact Bool.false_ne_true hsci

/-- A two-variable graph with one science variable, used as the C8
witness input. -/
def c8Graph : VarInfoData :=
  { variablesDict :=
      [("/sci",
        { full_name_path := "/sci"
          dimensions := ["/lat"]
          attributes := []
          references := [("coordinates", ["/lat"])] }),
       ("/lat",
        { full_name_path := "/lat"
          dimensions := []
          attributes := [("units", some "degrees_north")]
          references := [] })]
    references := ["/lat"]
    cfConfig := emptyCFConfigData }

/-- Witness for C8 at the concrete two-variable graph. -/
theorem c8_witness : "/sci" ∉ getMetadataVariables c8Graph :=
  c8_science_metadata_disjoint c8Graph "/sci" (by decide) (by decide)

/-! ## C10: the empty exclusion-pattern set excludes nothing -/

/-- Spec-side comparison definition: `get_science_variables` with the
exclusion clause dropped. -/
def getScienceVariablesNoExclusions (g : VarInfoData) : List String :=
  (((g.variablesDict.filter
      (fun pv => isScienceVariable g pv.2)).map
    Prod.fst).dedup).filter (fun p => !(g.references.contains p))

/-- Spec-side comparison definition: `get_metadata_variables` with the
exclusion clause dropped. -/
def getMetadataVariablesNoExclusions (g : VarInfoData) : List String :=
  (((g.variablesDict.filter
      (fun pv =>
        !(isScienceVariable g pv.2) &&
          !(strEndsWith pv.2.full_name_path "_bnds"))).map
    Prod.fst).dedup).filter (fun p => !(g.references.contains p))

/-- Claim C10 (confirmed): when the excluded-science-variable pattern set
is empty, the joined exclusion pattern is the empty string,
`variable_is_excluded` rejects no path (the empty pattern is special-cased
instead of letting the empty regular expression match everything), and the
science/metadata partitions equal their exclusion-free counterparts. -/
theorem c10_empty_exclusions_exclude_nothing (g : VarInfoData)
    (h : g.cfConfig.excludedScienceVariables = []) :
    (∀ path,
      variableIsExcluded path
        (joinChar '|' g.cfConfig.excludedScienceVariables) = false) ∧
    getScienceVariables g = getScienceVariablesNoExclusions g ∧
    getMetadataVariables g = getMetadataVariablesNoExclusions g := by
  have hpat : joinChar '|' g.cfConfig.excludedScienceVariables = "" := by
    rw [h]; rfl
  have hexc : ∀ path, variableIsExcluded path "" = false := by
    intro path
    simp [variableIsExcluded]
  have hfilter1 : g.variablesDict.filter
      (fun pv => isScienceVariable g pv.2 &&
        !(variableIsExcluded pv.1 "")) =
      g.variablesDict.filter (fun pv => isScienceVariable g pv.2) := by
    apply List.filter_congr
    intro pv _
    simp [hexc]
  have hfilter2 : g.variablesDict.filter
      (fun pv => !(variableIsExcluded pv.1 "") &&
        !(isScienceVariable g pv.2) &&
        !(strEndsWith pv.2.full_name_path "_bnds")) =
      g.variablesDict.filter
        (fun pv => !(isScienceVariable g pv.2) &&
          !(strEndsWith pv.2.full_name_path "_bnds")) := by
    apply List.filter_congr
    intro pv _
    simp [hexc]
  refine ⟨fun path => by rw [hpat]; exact hexc path, ?_, ?_⟩
  · unfold getScienceVariables getScienceVariablesNoExclusions
    rw [hpat]
    simp only [hfilter1]
  · unfold getMetadataVariables getMetadataVariablesNoExclusions
    rw [hpat]
    simp only [hfilter2]

/-- The empty graph used as the C10 witness input. -/
def c10Graph : VarInfoData :=
  { variablesDict := []
    references := []
    cfConfig := emptyCFConfigData }

/-- Witness for C10 at the empty graph and a concrete path. -/
theorem c10_witness :
    variableIsExcluded "/any/path"
      (joinChar '|' c10Graph.cfConfig.excludedScienceVariables) = false :=
  (c10_empty_exclusions_exclude_nothing c10Graph rfl).1 "/any/path"

/-! ## C4 / C6 / C9: the required-variables closure loop -/

/-- The loop-invariant argument for `requiredLoop`: with a duplicate-free
worklist, disjoint from the required set and contained (together with
every existing variable path) in a finite candidate universe `u`, fuel
exceeding the number of not-yet-required candidates makes the loop drain
the worklist completely, and every path ever on the worklist or in the
required set ends up in the final required set. -/
lemma requiredLoop_spec (g : VarInfoData) (u : Finset String)
    (hvar : ∀ z : String, (getVariable g z).isSome → z ∈ u) :
    ∀ (fuel : Nat) (w r : List String),
      w.Nodup → (∀ x ∈ w, x ∉ r) → (∀ x ∈ w, x ∈ u) →
      (u.filter (fun z => z ∉ r)).card < fuel →
      (requiredLoop g fuel w r).2 = [] ∧
      ∀ y, (y ∈ w ∨ y ∈ r) → y ∈ (requiredLoop g fuel w r).1 := by
  intro fuel
  induction fuel with
  | zero => intro w r _ _ _ hlt; exact absurd hlt (Nat.not_lt_zero _)
  | succ fuel ih =>
    intro w r hnd hdisj hsub hlt
    cases w with
    | nil =>
      refine ⟨rfl, ?_⟩
      intro y hy
      rcases hy with hy | hy
      · simp at hy
      · exact hy
    | cons x rest =>
      have hx_u : x ∈ u := hsub x (by simp)
      have hx_r : x ∉ r := hdisj x (by simp)
      have hx_rest : x ∉ rest := (List.nodup_cons.mp hnd).1
      have hrest_nd : rest.Nodup := (List.nodup_cons.mp hnd).2
      have hcard : (u.filter (fun z => z ∉ (x :: r))).card <
          (u.filter (fun z => z ∉ r)).card := by
        apply Finset.card_lt_card
        constructor
        · intro z hz
          rw [Finset.mem_filter] at hz ⊢
          exact ⟨hz.1, fun hzr => hz.2 (List.mem_cons_of_mem x hzr)⟩
        · intro hsubset
          have hx_in : x ∈ u.filter (fun z => z ∉ r) :=
            Finset.mem_filter.mpr ⟨hx_u, hx_r⟩
          have hx_in' := hsubset hx_in
          rw [Finset.mem_filter] at hx_in'
          exact hx_in'.2 (List.mem_cons_self x r)
      have hlt' : (u.filter (fun z => z ∉ (x :: r))).card < fuel :=
        Nat.lt_of_lt_of_le hcard (Nat.lt_succ_iff.mp hlt)
      cases hv : getVariable g x with
      | none =>
        have heq : requiredLoop g (fuel + 1) (x :: rest) r =
            requiredLoop g fuel rest (x :: r) := by
          simp only [requiredLoop, hv]
        rw [heq]
        have hdisj' : ∀ z ∈ rest, z ∉ (x :: r) := by
          intro z hz
          simp only [List.mem_cons, not_or]
          exact ⟨fun he => hx_rest (he ▸ hz),
            hdisj z (List.mem_cons_of_mem x hz)⟩
        have hres := ih rest (x :: r) hrest_nd hdisj'
          (fun z hz => hsub z (List.mem_cons_of_mem x hz)) hlt'
        refine ⟨hres.1, ?_⟩
        intro y hy
        apply hres.2
        rcases hy with hy | hy
        · rcases List.mem_cons.mp hy with he | hm
          · exact Or.inr (by rw [he]; exact List.mem_cons_self x r)
          · exact Or.inl hm
        · exact Or.inr (List.mem_cons_of_mem x hy)
      | some variableObj =>
        have heq : requiredLoop g (fuel + 1) (x :: rest) r =
            requiredLoop g fuel
              (rest ++
                ((variableObj.getReferences).filter
                  (fun reference => (getVariable g reference).isSome)).filter
                  (fun reference =>
                    !((x :: r).contains reference) &&
                      !(rest.contains reference)))
              (x :: r) := by
          simp only [requiredLoop, hv]
        rw [heq]
        have hrefs_nd : ((variableObj.getReferences).filter
            (fun reference => (getVariable g reference).isSome)).Nodup :=
          (List.nodup_dedup _).filter _
        have hnew_nd : (((variableObj.getReferences).filter
            (fun reference => (getVariable g reference).isSome)).filter
            (fun reference =>
              !((x :: r).contains reference) &&
                !(rest.contains reference))).Nodup :=
          hrefs_nd.filter _
        have hnew_not_rest : ∀ z ∈ ((variableObj.getReferences).filter
            (fun reference => (getVariable g reference).isSome)).filter
            (fun reference =>
              !((x :: r).contains reference) &&
                !(rest.contains reference)), z ∉ rest ∧ z ∉ (x :: r) := by
          intro z hz
          have hb := (List.mem_filter.mp hz).2
          simp only [Bool.and_eq_true, Bool.not_eq_true'] at hb
          constructor
          · simpa using hb.2
          · simpa using hb.1
        have hnew_u : ∀ z ∈ ((variableObj.getReferences).filter
            (fun reference => (getVariable g reference).isSome)).filter
            (fun reference =>
              !((x :: r).contains reference) &&
                !(rest.contains reference)), z ∈ u := by
          intro z hz
          have hz' := (List.mem_filter.mp (List.mem_filter.mp hz).1).2
          exact hvar z (by simpa using hz')
        have hnd' : (rest ++ ((variableObj.getReferences).filter
            (fun reference => (getVariable g reference).isSome)).filter
            (fun reference =>
              !((x :: r).contains reference) &&
                !(rest.contains reference))).Nodup := by
          refine hrest_nd.append hnew_nd ?_
          intro z hz hzn
          exact (hnew_not_rest z hzn).1 hz
        have hdisj' : ∀ z ∈ rest ++ ((variableObj.getReferences).filter
            (fun reference => (getVariable g reference).isSome)).filter
            (fun reference =>
              !((x :: r).contains reference) &&
                !(rest.contains reference)), z ∉ (x :: r) := by
          intro z hz
          rcases List.mem_append.mp hz with hz | hz
          · simp only [List.mem_cons, not_or]
            exact ⟨fun he => hx_rest (he ▸ hz),
              hdisj z (List.mem_cons_of_mem x hz)⟩
          · exact (hnew_not_rest z hz).2
        have hsub' : ∀ z ∈ rest ++ ((variableObj.getReferences).filter
            (fun reference => (getVariable g reference).isSome)).filter
            (fun reference =>
              !((x :: r).contains reference) &&
                !(rest.contains reference)), z ∈ u := by
          intro z hz
          rcases List.mem_append.mp hz with hz | hz
          · exact hsub z (List.mem_cons_of_mem x hz)
          · exact hnew_u z hz
        have hres := ih _ (x :: r) hnd' hdisj' hsub' hlt'
        refine ⟨hres.1, ?_⟩
        intro y hy
        apply hres.2
        rcases hy with hy | hy
        · rcases List.mem_cons.mp hy with he | hm
          · exact Or.inr (by rw [he]; exact List.mem_cons_self x r)
          · exact Or.inl (List.mem_append.mpr (Or.inl hm))
        · exact Or.inr (List.mem_cons_of_mem x hy)

/-- Instantiation of `requiredLoop_spec` at the fuel and seed chosen by
`getRequiredVariables`: the worklist is fully drained, and every seeded
path reaches the required set. -/
lemma getRequiredVariables_complete (g : VarInfoData)
    (requestedVariables : List String) :
    (getRequiredVariables g requestedVariables).2 = [] ∧
    ∀ y ∈ seededRequested g requestedVariables,
      y ∈ (requiredLoop g ((requiredCandidates g requestedVariables).length + 1)
        (seededRequested g requestedVariables) []).1 := by
  have hvar : ∀ z : String, (getVariable g z).isSome →
      z ∈ (requiredCandidates g requestedVariables).toFinset := by
    intro z hz
    rw [List.mem_toFinset]
    unfold requiredCandidates
    rw [List.mem_dedup]
    apply List.mem_append_right
    unfold getAllVariables
    rw [List.mem_dedup]
    unfold getVariable at hz
    exact mem_keys_of_lookup_isSome hz
  have hseed_nd : (seededRequested g requestedVariables).Nodup := by
    unfold seededRequested
    exact List.nodup_dedup _
  have hsubseed : ∀ x ∈ seededRequested g requestedVariables,
      x ∈ (requiredCandidates g requestedVariables).toFinset := by
    intro x hx
    rw [List.mem_toFinset]
    unfold requiredCandidates
    rw [List.mem_dedup]
    exact List.mem_append_left _ hx
  have hcand_nd : (requiredCandidates g requestedVariables).Nodup := by
    unfold requiredCandidates
    exact List.nodup_dedup _
  have hlt : (((requiredCandidates g requestedVariables).toFinset).filter
      (fun z => z ∉ ([] : List String))).card <
      (requiredCandidates g requestedVariables).length + 1 := by
    have hall : (((requiredCandidates g requestedVariables).toFinset).filter
        (fun z => z ∉ ([] : List String))) =
        (requiredCandidates g requestedVariables).toFinset :=
      Finset.filter_true_of_mem (fun z _ => List.not_mem_nil z)
    rw [hall, List.card_toFinset, List.dedup_eq_self.mpr hcand_nd]
    exact Nat.lt_succ_self _
  have hspec := requiredLoop_spec g
    (requiredCandidates g requestedVariables).toFinset hvar
    ((requiredCandidates g requestedVariables).length + 1)
    (seededRequested g requestedVariables) [] hseed_nd
    (fun x _ => List.not_mem_nil x) hsubseed hlt
  refine ⟨?_, fun y hy => hspec.2 y (Or.inl hy)⟩
  show (requiredLoop g ((requiredCandidates g requestedVariables).length + 1)
    (seededRequested g requestedVariables) []).2 = []
  exact hspec.1

/-- Claim C9 (confirmed): `get_required_variables` empties the caller's
`requested_variables` set — modelled by returning the final state of that
set, which the loop always drains to empty (after first extending it in
place with the collection-required variables and the discovered
references). -/
theorem c9_requested_set_is_emptied (g : VarInfoData)
    (requestedVariables : List String) :
    (getRequiredVariables g requestedVariables).2 = [] :=
  (getRequiredVariables_complete g requestedVariables).1

/-- A one-variable graph whose only variable path matches the
fake-dimension pattern. -/
def c4Graph : VarInfoData :=
  { variablesDict :=
      [("/FakeDim0",
        { full_name_path := "/FakeDim0"
          dimensions := []
          attributes := []
          references := [] })]
    references := []
    cfConfig := emptyCFConfigData }

/-- Claim C4, counterexample: `/FakeDim0` is an existing variable and is
requested, so the claimed superset property would require it in the
result — but `get_required_variables` finally strips every path matching
`.*/FakeDim\d+`, so the result is empty. -/
theorem c4_counterexample :
    "/FakeDim0" ∈ (["/FakeDim0"] : List String) ∧
    (getVariable c4Graph "/FakeDim0").isSome = true ∧
    "/FakeDim0" ∉ (getRequiredVariables c4Graph ["/FakeDim0"]).1 := by
  refine ⟨by decide, by decide, by decide⟩

/-- Claim C4 (amended): the result of `get_required_variables(S)` contains
every requested existing variable *whose path does not match the
fake-dimension pattern `.*/FakeDim\d+`* — i.e. it is a superset of
(S ∩ existing variables) minus the fake-dimension paths stripped by
`exclude_fake_dimensions`.  (The requested path's existence is not even
needed: every non-fake requested path is returned.) -/
theorem c4_superset_modulo_fake_dimensions (g : VarInfoData)
    (requestedVariables : List String) (x : String)
    (hreq : x ∈ requestedVariables)
    (hex : (getVariable g x).isSome = true)
    (hfake : reMatch fakeDimPattern x = false) :
    x ∈ (getRequiredVariables g requestedVariables).1 := by
  have hseed : x ∈ seededRequested g requestedVariables := by
    unfold seededRequested
    rw [List.mem_dedup]
    exact List.mem_append_left _ hreq
  have hmem := (getRequiredVariables_complete g requestedVariables).2 x hseed
  show x ∈ excludeFakeDimensions
    (requiredLoop g ((requiredCandidates g requestedVariables).length + 1)
      (seededRequested g requestedVariables) []).1
  unfold excludeFakeDimensions
  rw [List.mem_filter]
  exact ⟨hmem, by rw [hfake]; rfl⟩

/-- A one-variable graph with an ordinary science path, used as the C4
witness input. -/
def c4WitnessGraph : VarInfoData :=
  { variablesDict :=
      [("/science",
        { full_name_path := "/science"
          dimensions := []
          attributes := []
          references := [] })]
    references := []
    cfConfig := emptyCFConfigData }

/-- Witness for C4's amended theorem at a concrete graph and request. -/
theorem c4_witness :
    "/science" ∈ (getRequiredVariables c4WitnessGraph ["/science"]).1 :=
  c4_superset_modulo_fake_dimensions c4WitnessGraph ["/science"] "/science"
    (by decide) (by decide) (by decide)

/-- Claim C6 (confirmed): no path in the result of
`get_required_variables` matches the fake-dimension pattern
`.*/FakeDim\d+` — the final `exclude_fake_dimensions` filter removes every
such path. -/
theorem c6_no_fake_dimensions_in_result (g : VarInfoData)
    (requestedVariables : List String) (x : String)
    (hx : x ∈ (getRequiredVariables g requestedVariables).1) :
    reMatch fakeDimPattern x = false := by
  have hx' : x ∈ excludeFakeDimensions
      (requiredLoop g ((requiredCandidates g requestedVariables).length + 1)
        (seededRequested g requestedVariables) []).1 := hx
  unfold excludeFakeDimensions at hx'
  have hb := (List.mem_filter.mp hx').2
  simpa using hb

/-- A one-variable graph used as the C6 witness input. -/
def c6Graph : VarInfoData :=
  { variablesDict :=
      [("/lat",
        { full_name_path := "/lat"
          dimensions := []
          attributes := [("units", some "degrees_north")]
          references := [] })]
    references := []
    cfConfig := emptyCFConfigData }

/-- Witness for C6 at a concrete graph, request and result member. -/
theorem c6_witness : reMatch fakeDimPattern "/lat" = false :=
  c6_no_fake_dimensions_in_result c6Graph ["/lat"] "/lat" (by decide)
